import Mathlib

/-!
Verification development for the pygeodesy time-series model core.

We give a shallow embedding of the two central components:

* `Model` (from `Model.py`): the design matrix `H` (`Ntime × npar`), the
  optional interferogram-domain matrix `G = Jmat @ H`, the four functional
  partition index lists, the ownership range `[jstart, jend)`, and the MPI
  rank; with the operations `Model.init` (the constructor),
  `setOwnershipRange`, `addModulatingSplines`, `updatePartitionSizes`
  and `predict`.

* `Insar` (from `Insar.py`): the chunked stack holding the optional
  `igram`/`weights`/`par`/`recon` datasets, with the chunk operations
  `getChunk` and `setChunk`.

Matrices are lists of rows over `Int` (the numpy code is elementwise
arithmetic on numeric arrays; integer entries suffice for the algebraic
content and keep every definition decidable).  3-D arrays
(time/parameter × Ny × Nx) are lists of 2-D planes.
-/

namespace Pygeodesy

abbrev Row := List Int
abbrev Mat := List Row
abbrev Arr3 := List Mat

/-! ### Elementwise array arithmetic (the numpy operations `predict` uses) -/

/-- Elementwise sum of two 2-D arrays (numpy `A + B`). -/
def matAdd (A B : Mat) : Mat :=
  List.zipWith (List.zipWith (· + ·)) A B

/-- Scalar times a 2-D array (numpy `c * A`). -/
def matScale (c : Int) (A : Mat) : Mat :=
  A.map (List.map (c * ·))

/-- The `ny × nx` all-zero 2-D array. -/
def matZero (ny nx : Nat) : Mat :=
  List.replicate ny (List.replicate nx 0)

/-- Elementwise sum of two 3-D arrays (numpy `a + b` on 3-D operands). -/
def arrAdd (a b : Arr3) : Arr3 :=
  List.zipWith matAdd a b

/-- Numpy `np.einsum('ij,jmn->imn', D, M)`: row `i` of the output is
`sum_k D[i,k] * M[k]`, a linear combination of the planes of `M`. -/
def einsum (D : Mat) (M : Arr3) (ny nx : Nat) : Arr3 :=
  D.map fun row => (List.zipWith matScale row M).foldl matAdd (matZero ny nx)

/-- Elementwise (Hadamard) product of two 2-D arrays. -/
def matHad (A B : Mat) : Mat :=
  List.zipWith (List.zipWith (· * ·)) A B

/-- Numpy `np.einsum('ijmn,jmn->imn', Gmod, M)`: the pixelwise-modulated
contraction used when a `Gmod` operand is supplied to `predict`. -/
def einsumMod (Gmod : List Arr3) (M : Arr3) (ny nx : Nat) : Arr3 :=
  Gmod.map fun Gi => (List.zipWith matHad Gi M).foldl matAdd (matZero ny nx)

/-- Numpy `np.dot(J, H)` for 2-D operands: ordinary matrix product. -/
def matMul (J H : Mat) : Mat :=
  J.map fun row =>
    (List.range ((H.headD []).length)).map fun k =>
      (List.zipWith (fun a hrow => a * hrow.getD k 0) row H).sum

/-- Column selection `H[:, idx]` by an index list (numpy fancy indexing on
the column axis). -/
def selectCols (H : Mat) (idx : List Nat) : Mat :=
  H.map fun row => idx.map fun j => row.getD j 0

/-- Plane selection `mvec[idx, :, :]` by an index list (numpy fancy
indexing on the leading axis). -/
def selectPlanes (m : Arr3) (idx : List Nat) : Arr3 :=
  idx.map fun j => m.getD j []

/-! ### Shape predicates (numpy arrays are rectangular; the list embedding
carries rectangularity as explicit hypotheses) -/

/-- Predicate: `A` is a rectangular `ny × nx` 2-D array. -/
def Shaped2 (ny nx : Nat) (A : Mat) : Prop :=
  A.length = ny ∧ ∀ r ∈ A, r.length = nx

/-- Predicate: `a` is a rectangular `nt × ny × nx` 3-D array. -/
def Shaped3 (nt ny nx : Nat) (a : Arr3) : Prop :=
  a.length = nt ∧ ∀ p ∈ a, Shaped2 ny nx p

instance (ny nx : Nat) (A : Mat) : Decidable (Shaped2 ny nx A) := by
  unfold Shaped2; exact inferInstance

instance (nt ny nx : Nat) (a : Arr3) : Decidable (Shaped3 nt ny nx a) := by
  unfold Shaped3; exact inferInstance

/-! ### The `Model` class (`Model.py`) -/

/-- The slice of the `TimeRepresentation` collaborator that `Model.__init__`
reads: the design matrix (`rep.matrix`), the four functional partitions
(`rep.getFunctionalPartitions(returnstep=True)`) and the regularization
indices (`rep.reg_ind`). -/
structure TimeRep where
  matrix : Mat
  partSecular : List Nat
  partSeasonal : List Nat
  partTransient : List Nat
  partStep : List Nat
  reg_ind : List Nat
deriving DecidableEq, Repr

/-- Python `rep.getFunctionalPartitions(returnstep=True)`: the four ordered index
lists, secular first, step last. -/
def TimeRep.getFunctionalPartitions (rep : TimeRep) : List (List Nat) :=
  [rep.partSecular, rep.partSeasonal, rep.partTransient, rep.partStep]

/-- The state of a `Model` instance. -/
structure Model where
  H : Mat
  G : Option Mat
  Nifg : Nat
  Ntime : Nat
  npar : Nat
  jstart : Nat
  jend : Nat
  isecular : List Nat
  iseasonal : List Nat
  itransient : List Nat
  istep : List Nat
  ifull : List Nat
  nsecular : Nat
  nseasonal : Nat
  ntransient : Nat
  nstep : Nat
  nfull : Nat
  reg_indices : List Nat
  rank : Nat
deriving DecidableEq, Repr

/-- Python `Model._updatePartitionSizes`: recompute each cached partition size as
the length of the corresponding index list (including `ifull`). -/
def Model.updatePartitionSizes (m : Model) : Model :=
  { m with
    nsecular := m.isecular.length
    nseasonal := m.iseasonal.length
    ntransient := m.itransient.length
    nstep := m.istep.length
    nfull := m.ifull.length }

/-- Python `Model.__init__(rep, rank, Jmat)`: take `H` from the representation,
set `G = Jmat @ H` when a connectivity matrix is supplied, read the shape
`(Ntime, npar)` of `H`, default the ownership range to the full range,
read the four functional partitions, set `ifull = arange(npar)` and cache
the partition sizes. -/
def Model.init (rep : TimeRep) (rank : Nat) (Jmat : Option Mat) : Model :=
  let H := rep.matrix
  let G := Jmat.map fun J => matMul J H
  let base : Model :=
    { H := H
      G := G
      Nifg := (G.getD []).length
      Ntime := H.length
      npar := (H.headD []).length
      jstart := 0
      jend := (H.headD []).length
      isecular := rep.partSecular
      iseasonal := rep.partSeasonal
      itransient := rep.partTransient
      istep := rep.partStep
      ifull := List.range ((H.headD []).length)
      nsecular := 0
      nseasonal := 0
      ntransient := 0
      nstep := 0
      nfull := 0
      reg_indices := rep.reg_ind
      rank := rank }
  base.updatePartitionSizes

/-- Python `Model.setOwnershipRange(jstart, jend)`: record the pair, nothing else. -/
def Model.setOwnershipRange (m : Model) (jstart jend : Nat) : Model :=
  { m with jstart := jstart, jend := jend }

/-- Python `Model.addModulatingSplines(nsplmod)`: no-op for `nsplmod == 0`;
otherwise shift every index of the four partitions up by `nsplmod`,
prepend `range(nsplmod)` to the seasonal partition, grow `npar`,
regenerate `ifull`, recompute the partition sizes, and left-pad `H`
(and `G` when present) with `nsplmod` zero columns. -/
def Model.addModulatingSplines (m : Model) (nsplmod : Nat) : Model :=
  if nsplmod = 0 then m
  else
    let shifted :=
      { m with
        isecular := m.isecular.map (· + nsplmod)
        iseasonal := m.iseasonal.map (· + nsplmod)
        itransient := m.itransient.map (· + nsplmod)
        istep := m.istep.map (· + nsplmod) }
    let grown :=
      { shifted with
        iseasonal := List.range nsplmod ++ shifted.iseasonal
        npar := shifted.npar + nsplmod
        ifull := List.range (shifted.npar + nsplmod) }
    let sized := grown.updatePartitionSizes
    { sized with
      H := sized.H.map fun row => List.replicate nsplmod 0 ++ row
      G := sized.G.map fun g => g.map fun row => List.replicate nsplmod 0 ++ row }

/-! ### `Model.predict` -/

/-- The failures `predict` can raise: the `assert` on the leading dimension
of `mvec`, the `AttributeError` on `self.G` when no connectivity matrix was
supplied, and the `KeyError` on `out[key]` for an unrecognized data key. -/
inductive PredictError
  | dimMismatch
  | missingMatrix
  | keyError
deriving DecidableEq, Repr

/-- The decomposition dictionary `out` built by `predict`. -/
structure PredictOut where
  secular : Arr3
  seasonal : Arr3
  transient : Arr3
  full : Arr3
deriving DecidableEq, Repr

/-- One `dataObj.setChunk(...)` call issued by `predict`: the data key the
sink was registered under, the `dtype` argument (`'recon'` or `'par'`),
the array written, and the chunk `[slice_y, slice_x]` it is written at. -/
structure ChunkWrite where
  key : String
  dtype : String
  dat : Arr3
  chunk : (Nat × Nat) × (Nat × Nat)
deriving DecidableEq, Repr

/-- The observable outcome of a `predict` call: a non-coordinator rank
returns at once (`skipped`), otherwise the call either raises after having
issued some writes, or completes with the decomposition and all writes. -/
inductive PredictResult
  | skipped
  | failed (e : PredictError) (writes : List ChunkWrite)
  | done (out : PredictOut) (writes : List ChunkWrite)
deriving DecidableEq, Repr

/-- Dictionary access `out[key]` for the decomposition dictionary (the four keys written by
`predict`; anything else is a `KeyError`). -/
def PredictOut.lookup (o : PredictOut) (key : String) : Option Arr3 :=
  if key = "secular" then some o.secular
  else if key = "seasonal" then some o.seasonal
  else if key = "transient" then some o.transient
  else if key = "full" then some o.full
  else none

/-- Python `getattr(self, 'i%s' % key)`: the index list of a named partition
(defined for the five `i…` attributes the model carries). -/
def Model.indexListFor (m : Model) (key : String) : Option (List Nat) :=
  if key = "secular" then some m.isecular
  else if key = "seasonal" then some m.iseasonal
  else if key = "transient" then some m.itransient
  else if key = "step" then some m.istep
  else if key = "full" then some m.ifull
  else none

/-- The write loop of `predict`: for each `key` of the `data` dictionary in
order, write `out[key]` with dtype `'recon'` and `mvec[i<key>, :, :]` with
dtype `'par'`.  An unrecognized key raises `KeyError` at `out[key]`,
keeping the writes already issued. -/
def Model.predictWrites (m : Model) (o : PredictOut) (mvec : Arr3)
    (chunk : (Nat × Nat) × (Nat × Nat)) :
    List String → List ChunkWrite × Option PredictError
  | [] => ([], none)
  | key :: rest =>
    match o.lookup key, m.indexListFor key with
    | some recon, some ind =>
      let res := m.predictWrites o mvec chunk rest
      (⟨key, "recon", recon, chunk⟩ ::
         ⟨key, "par", selectPlanes mvec ind, chunk⟩ :: res.1, res.2)
    | _, _ => ([], some .keyError)

/-- The decomposition computed by the coordinator branch of `predict` from
the selected design matrix `D`: the three base-category `einsum`
contractions (the seasonal one through `Gmod` when that operand is
supplied) and `full` as their elementwise sum. -/
def Model.predictOut (m : Model) (D : Mat) (mvec : Arr3)
    (Gmod : Option (List Arr3)) : PredictOut :=
  let ny := (mvec.headD []).length
  let nx := ((mvec.headD []).headD []).length
  let secular := einsum (selectCols D m.isecular)
    (selectPlanes mvec m.isecular) ny nx
  let seasonal :=
    match Gmod with
    | none => einsum (selectCols D m.iseasonal)
        (selectPlanes mvec m.iseasonal) ny nx
    | some gm => einsumMod gm (selectPlanes mvec m.iseasonal) ny nx
  let transient := einsum (selectCols D m.itransient)
    (selectPlanes mvec m.itransient) ny nx
  ⟨secular, seasonal, transient, arrAdd (arrAdd secular seasonal) transient⟩

/-- Python `Model.predict(mvec, data, chunk, insar, Gmod)`.

Only rank 0 does any work.  It first asserts that the leading dimension of
`mvec` equals `npar`, then selects the design matrix (`G` when
`insar=True`, failing when no connectivity matrix was supplied at
construction, else `H`), computes the secular, seasonal and transient
signals by `einsum` over the partition columns (the seasonal one through
`Gmod` when that operand is supplied), forms `full` as their elementwise
sum, and runs the write loop over the `data` keys. -/
def Model.predict (m : Model) (mvec : Arr3) (data : List String)
    (chunk : (Nat × Nat) × (Nat × Nat)) (insar : Bool)
    (Gmod : Option (List Arr3) := none) : PredictResult :=
  if m.rank ≠ 0 then .skipped
  else if mvec.length ≠ m.npar then .failed .dimMismatch []
  else
    match (if insar then m.G else some m.H) with
    | none => .failed .missingMatrix []
    | some D =>
      let o := m.predictOut D mvec Gmod
      let res := m.predictWrites o mvec chunk data
      match res.2 with
      | none => .done o res.1
      | some e => .failed e res.1

/-! ### The `Insar` chunked stack (`Insar.py`)

The stack holds up to four named 3-D datasets.  Only rank 0 holds the real
file; `getChunk` is a collective read (rank 0 slices, then the shape and
the values are broadcast so every rank returns the same array), and
`setChunk` writes only on rank 0.  We model the group outcome of
`getChunk` from the coordinator's state as the list of per-rank return
values, and `setChunk` per-role on the state of the calling rank. -/

/-- Python `l[a:b]` for a slice with `0 ≤ a ≤ b` (numpy basic slicing,
clamping at the length exactly as python does). -/
def sliceL (a b : Nat) (l : List α) : List α :=
  (l.drop a).take (b - a)

/-- Python `l[a:b] = vals` for a conforming assignment (`vals` has the slice's
length, which numpy enforces): elements `a … b-1` are replaced. -/
def setL (a b : Nat) (l vals : List α) : List α :=
  l.take a ++ vals ++ l.drop b

/-- Numpy `arr[:, sy, sx]`: slice every plane by the two spatial slices. -/
def slice3 (arr : Arr3) (sy sx : Nat × Nat) : Arr3 :=
  arr.map fun plane => (sliceL sy.1 sy.2 plane).map (sliceL sx.1 sx.2)

/-- Numpy `plane[sy, sx] = q`: rows `sy.1 … sy.2-1` get their `sx` columns
replaced by the corresponding row of `q` (conforming assignment). -/
def setPlane (sy sx : Nat × Nat) (plane q : Mat) : Mat :=
  plane.take sy.1 ++
    List.zipWith (fun row qrow => setL sx.1 sx.2 row qrow)
      (sliceL sy.1 sy.2 plane) q ++
    plane.drop sy.2

/-- Numpy `arr[:, sy, sx] = dat`: every plane gets its spatial window replaced by
the corresponding plane of `dat` (conforming assignment). -/
def set3 (arr : Arr3) (sy sx : Nat × Nat) (dat : Arr3) : Arr3 :=
  List.zipWith (fun plane qp => setPlane sy sx plane qp) arr dat

/-- The chunk-level failures: the `KeyError` from `attr_dict[dtype]` for an
unrecognized dtype string, and the `AttributeError` from
`getattr(self, ...)` when the named dataset was never created. -/
inductive ChunkError
  | keyError
  | attrError
deriving DecidableEq, Repr

/-- The state of an `Insar` stack instance on one rank: the MPI rank and
group size, and the datasets this rank holds (only rank 0, the owner of
the H5 file, holds real arrays; a dataset that was never created is
`none`). -/
structure Insar where
  rank : Nat
  n_workers : Nat
  igram : Option Arr3
  weights : Option Arr3
  par : Option Arr3
  recon : Option Arr3
deriving DecidableEq, Repr

/-- Dereference one entry of the attribute table: `getattr` on a dataset
attribute that was never created raises `AttributeError`. -/
def optDataset : Option Arr3 → Except ChunkError Arr3
  | some a => .ok a
  | none => .error .attrError

/-- Python `getattr(self, attr_dict[dtype])`: `attr_dict` recognizes exactly
`igram`, `weight`, `par`, `recon` (anything else is a `KeyError`); a
recognized name whose dataset was never created is an `AttributeError`. -/
def Insar.attrGet (s : Insar) (dtype : String) : Except ChunkError Arr3 :=
  if dtype = "igram" then optDataset s.igram
  else if dtype = "weight" then optDataset s.weights
  else if dtype = "par" then optDataset s.par
  else if dtype = "recon" then optDataset s.recon
  else .error .keyError

/-- Store a new value into the dataset a recognized dtype names. -/
def Insar.attrSet (s : Insar) (dtype : String) (a : Arr3) : Insar :=
  if dtype = "igram" then { s with igram := some a }
  else if dtype = "weight" then { s with weights := some a }
  else if dtype = "par" then { s with par := some a }
  else if dtype = "recon" then { s with recon := some a }
  else s

/-- Python `Insar.getChunk(slice_y, slice_x, dtype)` as a collective call, seen
from the coordinator's state: rank 0 slices `arr[:, slice_y, slice_x]`
from the dataset `dtype` names, its shape and values are then broadcast,
and every one of the `n_workers` ranks returns the same array.  The result
is the list of per-rank return values. -/
def Insar.getChunk (s : Insar) (sy sx : Nat × Nat) (dtype : String) :
    Except ChunkError (List Arr3) :=
  match s.attrGet dtype with
  | .error e => .error e
  | .ok arr => .ok (List.replicate s.n_workers (slice3 arr sy sx))

/-- Python `Insar.setChunk(dat, slice_y, slice_x, dtype)`: only rank 0 writes
(`arr[:, slice_y, slice_x] = dat`); every other rank treats the call as a
no-op and its state is unchanged. -/
def Insar.setChunk (s : Insar) (dat : Arr3) (sy sx : Nat × Nat)
    (dtype : String) : Except ChunkError Insar :=
  if s.rank = 0 then
    match s.attrGet dtype with
    | .error e => .error e
    | .ok arr => .ok (s.attrSet dtype (set3 arr sy sx dat))
  else .ok s

/-- Python `Insar.initialize(data_shape, ..., recon)` restricted to the dataset
creation it performs: rank 0 creates the primary dataset (`recon` when the
reconstruction flag is set, else `igram`) and `weights`, zero-filled as H5
datasets are; other ranks touch no data. -/
def Insar.initialize (s : Insar) (nt ny nx : Nat) (recon : Bool) : Insar :=
  if s.rank = 0 then
    let z : Arr3 := List.replicate nt (matZero ny nx)
    if recon then { s with recon := some z, weights := some z }
    else { s with igram := some z, weights := some z }
  else s

/-! ### Entry-level lemmas about the array arithmetic -/

/-- Entry `A[y, x]` of a 2-D array, with out-of-range defaults. -/
def entry (A : Mat) (y x : Nat) : Int :=
  (A.getD y []).getD x 0

/-- Entry `a[i, y, x]` of a 3-D array, with out-of-range defaults. -/
def entry3 (a : Arr3) (i y x : Nat) : Int :=
  entry (a.getD i []) y x

/-- The tensor-contraction formula of the specification:
`output[i, y, x] = sum_j D[i, j] * mvec[j, y, x]` with `j` ranging over
the index list of one functional category. -/
def tensorContract (D : Mat) (idx : List Nat) (mvec : Arr3)
    (i y x : Nat) : Int :=
  (idx.map fun j => (D.getD i []).getD j 0 * entry3 mvec j y x).sum

/-- Boolean equality test on `Except`, for decidability of the chunk
operations' results. -/
def exceptEq {ε α : Type} [DecidableEq ε] [DecidableEq α] :
    Except ε α → Except ε α → Bool
  | .error e, .error f => e = f
  | .ok a, .ok b => a = b
  | _, _ => false

instance {ε α : Type} [DecidableEq ε] [DecidableEq α] :
    DecidableEq (Except ε α) := fun a b =>
  decidable_of_iff (exceptEq a b = true)
    (by cases a <;> cases b <;> simp [exceptEq])

/-! ### Concrete instances used by witnesses and counterexamples -/

/-- The spec scenario time representation: `Npar=5`, `Ntime=3`,
`H = [[1,0,1,0,0],[1,1,1,0,0],[1,0,1,1,1]]`, secular `[0]`, seasonal
`[1]`, transient `[3,4]` (column `2` is the step column). -/
def scenarioRep : TimeRep :=
  { matrix := [[1,0,1,0,0],[1,1,1,0,0],[1,0,1,1,1]]
    partSecular := [0]
    partSeasonal := [1]
    partTransient := [3,4]
    partStep := [2]
    reg_ind := [] }

/-- The scenario model, on the coordinator rank, without `Jmat`. -/
def scenarioModel : Model := Model.init scenarioRep 0 none

/-- The same model seen by a non-coordinator rank. -/
def workerModel : Model := Model.init scenarioRep 1 none

/-- The scenario parameter cube of shape `(5, 1, 1)` = `[2,3,0,1,1]`. -/
def scenarioMvec : Arr3 := [[[2]],[[3]],[[0]],[[1]],[[1]]]

/-- A parameter cube with a wrong leading dimension (4 instead of 5). -/
def shortMvec : Arr3 := [[[2]],[[3]],[[0]],[[1]]]

/-- The coordinator state of a stack after `initialize` on a `(3, 4, 4)`
igram stack in a 3-role group (`par` and `recon` never created). -/
def scenarioStack : Insar :=
  Insar.initialize ⟨0, 3, none, none, none, none⟩ 3 4 4 false

/-- A stack instance as a non-coordinator rank holds it. -/
def workerStack : Insar := ⟨1, 3, none, none, none, none⟩

/-- A `(3, 2, 2)` chunk of data to write in the round-trip witness. -/
def scenarioChunkData : Arr3 :=
  [[[1,2],[3,4]], [[5,6],[7,8]], [[9,10],[11,12]]]

theorem getD_map_lt (f : α → β) (l : List α) (i : Nat) (h : i < l.length)
    (d : β) (d' : α) : (l.map f).getD i d = f (l.getD i d') := by
  simp [List.getD_eq_getElem?_getD, List.getElem?_map,
    List.getElem?_eq_getElem h]

theorem zipWith_add_getD (r s : Row) (h : r.length = s.length) (x : Nat) :
    (List.zipWith (· + ·) r s).getD x 0 = r.getD x 0 + s.getD x 0 := by
  induction r generalizing s x with
  | nil =>
    cases s with
    | nil => simp [List.getD]
    | cons b t => simp at h
  | cons a r ih =>
    cases s with
    | nil => simp at h
    | cons b t =>
      cases x with
      | zero => simp
      | succ n =>
        simpa [List.getD_cons_succ] using ih t (by simpa using h) n

theorem map_mul_getD (c : Int) (r : Row) (x : Nat) :
    (r.map (c * ·)).getD x 0 = c * r.getD x 0 := by
  induction r generalizing x with
  | nil => simp [List.getD]
  | cons a r ih =>
    cases x with
    | zero => simp
    | succ n => simpa [List.getD_cons_succ] using ih n

theorem replicate_getD (n : Nat) (a d : α) (i : Nat) :
    (List.replicate n a).getD i d = if i < n then a else d := by
  induction n generalizing i with
  | zero => simp [List.getD]
  | succ n ih =>
    cases i with
    | zero => simp [List.replicate]
    | succ j =>
      rw [List.replicate_succ, List.getD_cons_succ, ih]
      simp [Nat.succ_lt_succ_iff]

theorem matZero_entry (ny nx y x : Nat) : entry (matZero ny nx) y x = 0 := by
  unfold matZero entry
  rw [replicate_getD]
  split
  · rw [replicate_getD]; split <;> rfl
  · simp [List.getD]

theorem matAdd_entry {nx : Nat} {A B : Mat} (hlen : A.length = B.length)
    (hA : ∀ r ∈ A, r.length = nx) (hB : ∀ r ∈ B, r.length = nx)
    (y x : Nat) :
    entry (matAdd A B) y x = entry A y x + entry B y x := by
  induction A generalizing B y with
  | nil =>
    cases B with
    | nil => simp [matAdd, entry, List.getD]
    | cons b t => simp at hlen
  | cons a A ih =>
    cases B with
    | nil => simp at hlen
    | cons b B =>
      cases y with
      | zero =>
        simp only [matAdd, List.zipWith_cons_cons, entry, List.getD_cons_zero]
        exact zipWith_add_getD a b
          (by rw [hA a (by simp), hB b (by simp)]) x
      | succ n =>
        simp only [matAdd, List.zipWith_cons_cons, entry, List.getD_cons_succ]
        exact ih (by simpa using hlen)
          (fun r hr => hA r (by simp [hr]))
          (fun r hr => hB r (by simp [hr])) n

theorem matScale_entry (c : Int) (A : Mat) (y x : Nat) :
    entry (matScale c A) y x = c * entry A y x := by
  induction A generalizing y with
  | nil => simp [matScale, entry, List.getD]
  | cons a A ih =>
    cases y with
    | zero =>
      simp only [matScale, List.map_cons, entry, List.getD_cons_zero]
      exact map_mul_getD c a x
    | succ n => simpa [matScale, entry, List.getD_cons_succ] using ih n

theorem mem_zipWith {f : α → β → γ} {c : γ} :
    ∀ {l1 : List α} {l2 : List β}, c ∈ List.zipWith f l1 l2 →
      ∃ a ∈ l1, ∃ b ∈ l2, c = f a b := by
  intro l1
  induction l1 with
  | nil => intro l2 h; simp at h
  | cons a t ih =>
    intro l2 h
    cases l2 with
    | nil => simp at h
    | cons b s =>
      simp only [List.zipWith_cons_cons, List.mem_cons] at h
      rcases h with h | h
      · exact ⟨a, by simp, b, by simp, h⟩
      · obtain ⟨a', ha, b', hb, rfl⟩ := ih h
        exact ⟨a', by simp [ha], b', by simp [hb], rfl⟩

theorem zipWith_snd_eq {f : α → β → β} :
    ∀ (l1 : List α) (l2 : List β),
      (∀ a ∈ l1, ∀ b ∈ l2, f a b = b) → l2.length ≤ l1.length →
      List.zipWith f l1 l2 = l2 := by
  intro l1
  induction l1 with
  | nil =>
    intro l2 _ hlen
    cases l2 with
    | nil => rfl
    | cons b t => simp at hlen
  | cons a t ih =>
    intro l2 h hlen
    cases l2 with
    | nil => simp
    | cons b s =>
      simp only [List.zipWith_cons_cons]
      rw [h a (by simp) b (by simp),
        ih s (fun a' ha' b' hb' => h a' (by simp [ha']) b' (by simp [hb']))
          (by simpa using hlen)]

theorem matAdd_shaped {ny nx : Nat} {A B : Mat}
    (hA : Shaped2 ny nx A) (hB : Shaped2 ny nx B) :
    Shaped2 ny nx (matAdd A B) := by
  constructor
  · simp [matAdd, List.length_zipWith, hA.1, hB.1]
  · intro r hr
    obtain ⟨a, ha, b, hb, rfl⟩ := mem_zipWith hr
    simp [List.length_zipWith, hA.2 a ha, hB.2 b hb]

theorem matScale_shaped {ny nx : Nat} {A : Mat} (c : Int)
    (hA : Shaped2 ny nx A) : Shaped2 ny nx (matScale c A) := by
  constructor
  · simp [matScale, hA.1]
  · intro r hr
    obtain ⟨a, ha, rfl⟩ := List.mem_map.mp hr
    simp [hA.2 a ha]

theorem matZero_shaped (ny nx : Nat) : Shaped2 ny nx (matZero ny nx) := by
  constructor
  · simp [matZero]
  · intro r hr
    rw [List.eq_of_mem_replicate hr]
    simp

theorem foldl_matAdd_shaped {ny nx : Nat} :
    ∀ (ms : List Mat) (init : Mat), Shaped2 ny nx init →
      (∀ A ∈ ms, Shaped2 ny nx A) → Shaped2 ny nx (ms.foldl matAdd init) := by
  intro ms
  induction ms with
  | nil => intro init hinit _; exact hinit
  | cons A ms ih =>
    intro init hinit hms
    rw [List.foldl_cons]
    exact ih (matAdd init A) (matAdd_shaped hinit (hms A (by simp)))
      (fun B hB => hms B (by simp [hB]))

theorem foldl_matAdd_entry {ny nx : Nat} :
    ∀ (ms : List Mat) (init : Mat), Shaped2 ny nx init →
      (∀ A ∈ ms, Shaped2 ny nx A) → ∀ (y x : Nat),
      entry (ms.foldl matAdd init) y x =
        entry init y x + (ms.map fun A => entry A y x).sum := by
  intro ms
  induction ms with
  | nil => intro init _ _ y x; simp
  | cons A ms ih =>
    intro init hinit hms y x
    have hA := hms A (by simp)
    rw [List.foldl_cons,
      ih (matAdd init A) (matAdd_shaped hinit hA)
        (fun B hB => hms B (by simp [hB])) y x,
      matAdd_entry (by rw [hinit.1, hA.1]) hinit.2 hA.2]
    simp [add_assoc]

theorem einsum_entry {ny nx : Nat} (D : Mat) (M : Arr3)
    (hM : ∀ A ∈ M, Shaped2 ny nx A) (i y x : Nat) (hi : i < D.length) :
    entry3 (einsum D M ny nx) i y x =
      (List.zipWith (fun c A => c * entry A y x) (D.getD i []) M).sum := by
  unfold einsum entry3
  rw [getD_map_lt _ _ _ hi _ []]
  have hmem : ∀ A ∈ List.zipWith matScale (D.getD i []) M, Shaped2 ny nx A := by
    intro A hA
    obtain ⟨c, _, B, hB, rfl⟩ := mem_zipWith hA
    exact matScale_shaped c (hM B hB)
  rw [foldl_matAdd_entry _ _ (matZero_shaped ny nx) hmem y x,
    matZero_entry, zero_add, List.map_zipWith]
  have hfun : (fun (c : Int) (A : Mat) => entry (matScale c A) y x) =
      fun (c : Int) (A : Mat) => c * entry A y x := by
    funext c A
    exact matScale_entry c A y x
  rw [hfun]

theorem einsum_shaped {ny nx : Nat} (D : Mat) (M : Arr3)
    (hM : ∀ A ∈ M, Shaped2 ny nx A) :
    Shaped3 D.length ny nx (einsum D M ny nx) := by
  constructor
  · simp [einsum]
  · intro P hP
    obtain ⟨row, _, rfl⟩ := List.mem_map.mp hP
    refine foldl_matAdd_shaped _ _ (matZero_shaped ny nx) ?_
    intro A hA
    obtain ⟨c, _, B, hB, rfl⟩ := mem_zipWith hA
    exact matScale_shaped c (hM B hB)

theorem selectPlanes_shaped {npar ny nx : Nat} {mvec : Arr3} {idx : List Nat}
    (hmvec : Shaped3 npar ny nx mvec) (hidx : ∀ j ∈ idx, j < npar) :
    ∀ A ∈ selectPlanes mvec idx, Shaped2 ny nx A := by
  intro A hA
  obtain ⟨j, hj, rfl⟩ := List.mem_map.mp hA
  have hjlt : j < mvec.length := by rw [hmvec.1]; exact hidx j hj
  have hmem : mvec.getD j [] ∈ mvec := by
    rw [List.getD_eq_getElem?_getD, List.getElem?_eq_getElem hjlt]
    exact List.getElem_mem hjlt
  exact hmvec.2 _ hmem

/-- The central algebraic fact behind `predict`: the `einsum` of the
column-selected design matrix against the plane-selected parameter cube
realizes, entry by entry, the tensor contraction
`sum_j D[i, j] * mvec[j, y, x]` over the category's index list. -/
theorem einsum_select_entry {ny nx : Nat} (D : Mat) (idx : List Nat)
    (mvec : Arr3) (npar : Nat)
    (hmvec : Shaped3 npar ny nx mvec) (hidx : ∀ j ∈ idx, j < npar)
    (i y x : Nat) (hi : i < D.length) :
    entry3 (einsum (selectCols D idx) (selectPlanes mvec idx) ny nx) i y x =
      tensorContract D idx mvec i y x := by
  have hM := selectPlanes_shaped hmvec hidx
  have hlen : i < (selectCols D idx).length := by simpa [selectCols] using hi
  rw [einsum_entry _ _ hM i y x hlen]
  unfold selectCols selectPlanes tensorContract
  rw [getD_map_lt _ _ _ hi _ [], List.zipWith_map, List.zipWith_same]
  rfl

theorem arrAdd_entry3 {ny nx : Nat} {a b : Arr3} (hlen : a.length = b.length)
    (ha : ∀ p ∈ a, Shaped2 ny nx p) (hb : ∀ p ∈ b, Shaped2 ny nx p)
    (i y x : Nat) :
    entry3 (arrAdd a b) i y x = entry3 a i y x + entry3 b i y x := by
  induction a generalizing b i with
  | nil =>
    cases b with
    | nil => simp [arrAdd, entry3, entry, List.getD]
    | cons p t => simp at hlen
  | cons p a ih =>
    cases b with
    | nil => simp at hlen
    | cons q b =>
      cases i with
      | zero =>
        simp only [arrAdd, List.zipWith_cons_cons, entry3, List.getD_cons_zero]
        have hp := ha p (by simp)
        have hq := hb q (by simp)
        exact matAdd_entry (by rw [hp.1, hq.1]) hp.2 hq.2 y x
      | succ n =>
        simp only [arrAdd, List.zipWith_cons_cons, entry3, List.getD_cons_succ]
        exact ih (by simpa using hlen)
          (fun r hr => ha r (by simp [hr]))
          (fun r hr => hb r (by simp [hr])) n

/-! ### Evaluation lemmas for `Model.predict` -/

theorem predictWrites_ok (m : Model) (o : PredictOut) (mvec : Arr3)
    (chunk : (Nat × Nat) × (Nat × Nat)) :
    ∀ data : List String,
      (∀ k ∈ data,
        k = "secular" ∨ k = "seasonal" ∨ k = "transient" ∨ k = "full") →
      (m.predictWrites o mvec chunk data).2 = none := by
  intro data
  induction data with
  | nil => intro _; rfl
  | cons k rest ih =>
    intro h
    have hk := h k (by simp)
    have hrest := ih fun k' hk' => h k' (by simp [hk'])
    rcases hk with rfl | rfl | rfl | rfl <;>
      simpa [Model.predictWrites, PredictOut.lookup, Model.indexListFor]
        using hrest

theorem predict_skipped (m : Model) (mvec : Arr3) (data : List String)
    (chunk : (Nat × Nat) × (Nat × Nat)) (insar : Bool)
    (Gmod : Option (List Arr3)) (hrank : m.rank ≠ 0) :
    m.predict mvec data chunk insar Gmod = .skipped := by
  unfold Model.predict
  rw [if_pos hrank]

theorem predict_dim_mismatch (m : Model) (mvec : Arr3) (data : List String)
    (chunk : (Nat × Nat) × (Nat × Nat)) (insar : Bool)
    (Gmod : Option (List Arr3))
    (hrank : m.rank = 0) (hlen : mvec.length ≠ m.npar) :
    m.predict mvec data chunk insar Gmod = .failed .dimMismatch [] := by
  unfold Model.predict
  rw [if_neg (by simp [hrank]), if_pos hlen]

theorem predict_missing_matrix (m : Model) (mvec : Arr3) (data : List String)
    (chunk : (Nat × Nat) × (Nat × Nat)) (Gmod : Option (List Arr3))
    (hrank : m.rank = 0) (hlen : mvec.length = m.npar) (hG : m.G = none) :
    m.predict mvec data chunk true Gmod = .failed .missingMatrix [] := by
  unfold Model.predict
  rw [if_neg (by simp [hrank]), if_neg (by simp [hlen])]
  simp [hG]

theorem predict_done (m : Model) (mvec : Arr3) (data : List String)
    (chunk : (Nat × Nat) × (Nat × Nat)) (insar : Bool)
    (Gmod : Option (List Arr3)) (D : Mat)
    (hrank : m.rank = 0) (hlen : mvec.length = m.npar)
    (hD : (if insar then m.G else some m.H) = some D)
    (hkeys : ∀ k ∈ data,
      k = "secular" ∨ k = "seasonal" ∨ k = "transient" ∨ k = "full") :
    m.predict mvec data chunk insar Gmod =
      .done (m.predictOut D mvec Gmod)
        (m.predictWrites (m.predictOut D mvec Gmod) mvec chunk data).1 := by
  unfold Model.predict
  rw [if_neg (by simp [hrank]), if_neg (by simp [hlen]), hD]
  simp only []
  rw [predictWrites_ok m _ mvec chunk data hkeys]

theorem arrAdd_shaped3 {nt ny nx : Nat} {a b : Arr3}
    (ha : Shaped3 nt ny nx a) (hb : Shaped3 nt ny nx b) :
    Shaped3 nt ny nx (arrAdd a b) := by
  constructor
  · simp [arrAdd, List.length_zipWith, ha.1, hb.1]
  · intro p hp
    obtain ⟨u, hu, v, hv, rfl⟩ := mem_zipWith hp
    exact matAdd_shaped (ha.2 u hu) (hb.2 v hv)

theorem indexListFor_or_lookup (m₁ m₂ : Model)
    (hsec : m₁.isecular = m₂.isecular) (hseas : m₁.iseasonal = m₂.iseasonal)
    (htrans : m₁.itransient = m₂.itransient) (hfull : m₁.ifull = m₂.ifull)
    (o : PredictOut) (k : String) :
    m₁.indexListFor k = m₂.indexListFor k ∨ o.lookup k = none := by
  by_cases h1 : k = "secular"
  · left; simp [Model.indexListFor, h1, hsec]
  by_cases h2 : k = "seasonal"
  · left; simp [Model.indexListFor, h1, h2, hseas]
  by_cases h3 : k = "transient"
  · left; simp [Model.indexListFor, h1, h2, h3, htrans]
  by_cases h4 : k = "step"
  · right; simp [PredictOut.lookup, h4]
  by_cases h5 : k = "full"
  · left; simp [Model.indexListFor, h1, h2, h3, h4, h5, hfull]
  · left; simp [Model.indexListFor, h1, h2, h3, h4, h5]

theorem predictWrites_congr (m₁ m₂ : Model) (o : PredictOut) (mvec : Arr3)
    (chunk : (Nat × Nat) × (Nat × Nat))
    (h : ∀ k, m₁.indexListFor k = m₂.indexListFor k ∨ o.lookup k = none) :
    ∀ data, m₁.predictWrites o mvec chunk data =
      m₂.predictWrites o mvec chunk data := by
  intro data
  induction data with
  | nil => rfl
  | cons k rest ih =>
    simp only [Model.predictWrites]
    rcases h k with hk | hk
    · rw [hk, ih]
    · rw [hk]

theorem predictOut_ignores_istep (m : Model) (l : List Nat) (D : Mat)
    (mvec : Arr3) (Gmod : Option (List Arr3)) :
    Model.predictOut { m with istep := l } D mvec Gmod =
      m.predictOut D mvec Gmod := by
  cases m
  rfl

theorem predict_ignores_istep (m : Model) (l : List Nat) (mvec : Arr3)
    (data : List String) (chunk : (Nat × Nat) × (Nat × Nat)) (insar : Bool)
    (Gmod : Option (List Arr3)) :
    Model.predict { m with istep := l } mvec data chunk insar Gmod =
      m.predict mvec data chunk insar Gmod := by
  have hw : ∀ o, Model.predictWrites { m with istep := l } o mvec chunk data =
      m.predictWrites o mvec chunk data := fun o =>
    predictWrites_congr { m with istep := l } m o mvec chunk
      (fun k => indexListFor_or_lookup { m with istep := l } m
        rfl rfl rfl rfl o k) data
  unfold Model.predict
  simp only [predictOut_ignores_istep, hw]

/-! ### The claims -/

/-- C1: for every coordinator-role call `Model.predict(mvec, data, chunk,
insar=False)` with `mvec` of shape `(Npar, Ny, Nx)`, the call completes and
each of the three base category outputs equals the tensor contraction
`output[i, y, x] = sum_j H[i, j] * mvec[j, y, x]` with `j` ranging over
that category's index list.  (The concrete `Npar=5` scenario is checked in
the witness.) -/
theorem claim1_predict_is_tensor_contraction (m : Model) (mvec : Arr3)
    (data : List String) (chunk : (Nat × Nat) × (Nat × Nat))
    (hrank : m.rank = 0)
    (hshape : Shaped3 m.npar ((mvec.headD []).length)
      (((mvec.headD []).headD []).length) mvec)
    (hsec : ∀ j ∈ m.isecular, j < m.npar)
    (hseas : ∀ j ∈ m.iseasonal, j < m.npar)
    (htrans : ∀ j ∈ m.itransient, j < m.npar)
    (hkeys : ∀ k ∈ data,
      k = "secular" ∨ k = "seasonal" ∨ k = "transient" ∨ k = "full") :
    ∃ ws, m.predict mvec data chunk false =
        .done (m.predictOut m.H mvec none) ws ∧
      ∀ i y x, i < m.H.length →
        entry3 (m.predictOut m.H mvec none).secular i y x =
          tensorContract m.H m.isecular mvec i y x ∧
        entry3 (m.predictOut m.H mvec none).seasonal i y x =
          tensorContract m.H m.iseasonal mvec i y x ∧
        entry3 (m.predictOut m.H mvec none).transient i y x =
          tensorContract m.H m.itransient mvec i y x := by
  refine ⟨_, predict_done m mvec data chunk false none m.H hrank hshape.1
    (by simp) hkeys, ?_⟩
  intro i y x hi
  simp only [Model.predictOut]
  exact ⟨einsum_select_entry m.H m.isecular mvec m.npar hshape hsec i y x hi,
    einsum_select_entry m.H m.iseasonal mvec m.npar hshape hseas i y x hi,
    einsum_select_entry m.H m.itransient mvec m.npar hshape htrans i y x hi⟩

/-- Witness for C1: the spec scenario.  The hypotheses hold at
`scenarioModel`/`scenarioMvec`, the theorem applies, and the computed
decomposition is secular `[2,2,2]`, seasonal `[0,3,0]`, transient
`[0,0,2]`, full `[2,5,4]` (as `(3,1,1)` cubes). -/
theorem claim1_witness :
    (scenarioModel.rank = 0 ∧
      Shaped3 scenarioModel.npar ((scenarioMvec.headD []).length)
        (((scenarioMvec.headD []).headD []).length) scenarioMvec ∧
      (∀ j ∈ scenarioModel.isecular, j < scenarioModel.npar)) ∧
    (∃ ws, scenarioModel.predict scenarioMvec ["full"] ((0, 1), (0, 1)) false =
        .done (scenarioModel.predictOut scenarioModel.H scenarioMvec none) ws ∧
      ∀ i y x, i < scenarioModel.H.length →
        entry3 (scenarioModel.predictOut scenarioModel.H scenarioMvec none).secular
            i y x =
          tensorContract scenarioModel.H scenarioModel.isecular scenarioMvec i y x ∧
        entry3 (scenarioModel.predictOut scenarioModel.H scenarioMvec none).seasonal
            i y x =
          tensorContract scenarioModel.H scenarioModel.iseasonal scenarioMvec i y x ∧
        entry3 (scenarioModel.predictOut scenarioModel.H scenarioMvec none).transient
            i y x =
          tensorContract scenarioModel.H scenarioModel.itransient scenarioMvec i y x) ∧
    scenarioModel.predictOut scenarioModel.H scenarioMvec none =
      ⟨[[[2]], [[2]], [[2]]], [[[0]], [[3]], [[0]]],
       [[[0]], [[0]], [[2]]], [[[2]], [[5]], [[4]]]⟩ :=
  ⟨⟨by decide, by decide, by decide⟩,
    claim1_predict_is_tensor_contraction scenarioModel scenarioMvec ["full"]
      ((0, 1), (0, 1)) (by decide) (by decide) (by decide) (by decide)
      (by decide) (by decide),
    by decide⟩

/-- C2: on every coordinator-role `predict` call with a well-shaped `mvec`
the call completes, the reconstructed `full` output equals
`secular + seasonal + transient` element-wise at every pixel, and the step
category's columns are excluded from `full`: the entire result of
`predict` is invariant under replacing the tracked step index list. -/
theorem claim2_full_is_sum_step_excluded (m : Model) (mvec : Arr3)
    (data : List String) (chunk : (Nat × Nat) × (Nat × Nat)) (insar : Bool)
    (D : Mat)
    (hrank : m.rank = 0)
    (hshape : Shaped3 m.npar ((mvec.headD []).length)
      (((mvec.headD []).headD []).length) mvec)
    (hD : (if insar then m.G else some m.H) = some D)
    (hsec : ∀ j ∈ m.isecular, j < m.npar)
    (hseas : ∀ j ∈ m.iseasonal, j < m.npar)
    (htrans : ∀ j ∈ m.itransient, j < m.npar)
    (hkeys : ∀ k ∈ data,
      k = "secular" ∨ k = "seasonal" ∨ k = "transient" ∨ k = "full") :
    (∃ ws, m.predict mvec data chunk insar =
      .done (m.predictOut D mvec none) ws) ∧
    (∀ i y x, entry3 (m.predictOut D mvec none).full i y x =
        entry3 (m.predictOut D mvec none).secular i y x +
        entry3 (m.predictOut D mvec none).seasonal i y x +
        entry3 (m.predictOut D mvec none).transient i y x) ∧
    (∀ l : List Nat, Model.predict { m with istep := l } mvec data chunk insar =
        m.predict mvec data chunk insar) := by
  refine ⟨⟨_, predict_done m mvec data chunk insar none D hrank hshape.1 hD hkeys⟩,
    ?_, fun l => predict_ignores_istep m l mvec data chunk insar none⟩
  intro i y x
  have hs : Shaped3 D.length ((mvec.headD []).length)
      (((mvec.headD []).headD []).length)
      (einsum (selectCols D m.isecular) (selectPlanes mvec m.isecular)
        ((mvec.headD []).length) (((mvec.headD []).headD []).length)) := by
    simpa [selectCols] using
      einsum_shaped (selectCols D m.isecular) (selectPlanes mvec m.isecular)
        (selectPlanes_shaped hshape hsec)
  have he : Shaped3 D.length ((mvec.headD []).length)
      (((mvec.headD []).headD []).length)
      (einsum (selectCols D m.iseasonal) (selectPlanes mvec m.iseasonal)
        ((mvec.headD []).length) (((mvec.headD []).headD []).length)) := by
    simpa [selectCols] using
      einsum_shaped (selectCols D m.iseasonal) (selectPlanes mvec m.iseasonal)
        (selectPlanes_shaped hshape hseas)
  have ht : Shaped3 D.length ((mvec.headD []).length)
      (((mvec.headD []).headD []).length)
      (einsum (selectCols D m.itransient) (selectPlanes mvec m.itransient)
        ((mvec.headD []).length) (((mvec.headD []).headD []).length)) := by
    simpa [selectCols] using
      einsum_shaped (selectCols D m.itransient) (selectPlanes mvec m.itransient)
        (selectPlanes_shaped hshape htrans)
  simp only [Model.predictOut]
  rw [arrAdd_entry3
      (by simp only [arrAdd, List.length_zipWith, hs.1, he.1, ht.1, inf_idem])
      (arrAdd_shaped3 hs he).2 ht.2 i y x,
    arrAdd_entry3 (by rw [hs.1, he.1]) hs.2 he.2 i y x]

/-- Witness for C2 at the spec scenario: the hypotheses hold concretely
and the theorem applies with `insar = false`, `D = H`. -/
theorem claim2_witness :
    (scenarioModel.rank = 0 ∧
      (if false then scenarioModel.G else some scenarioModel.H) =
        some scenarioModel.H ∧
      (∀ j ∈ scenarioModel.iseasonal, j < scenarioModel.npar)) ∧
    ((∃ ws, scenarioModel.predict scenarioMvec [] ((0, 1), (0, 1)) false =
      .done (scenarioModel.predictOut scenarioModel.H scenarioMvec none) ws) ∧
    (∀ i y x,
      entry3 (scenarioModel.predictOut scenarioModel.H scenarioMvec none).full
          i y x =
        entry3 (scenarioModel.predictOut scenarioModel.H scenarioMvec none).secular
          i y x +
        entry3 (scenarioModel.predictOut scenarioModel.H scenarioMvec none).seasonal
          i y x +
        entry3 (scenarioModel.predictOut scenarioModel.H scenarioMvec none).transient
          i y x) ∧
    (∀ l : List Nat,
      Model.predict { scenarioModel with istep := l } scenarioMvec []
          ((0, 1), (0, 1)) false =
        scenarioModel.predict scenarioMvec [] ((0, 1), (0, 1)) false)) :=
  ⟨⟨by decide, rfl, by decide⟩,
    claim2_full_is_sum_step_excluded scenarioModel scenarioMvec []
      ((0, 1), (0, 1)) false scenarioModel.H (by decide) (by decide) rfl
      (by decide) (by decide) (by decide) (by decide)⟩

theorem addSplines_zero (m : Model) : m.addModulatingSplines 0 = m := rfl

theorem addSplines_fields (m : Model) (n : Nat) (hne : n ≠ 0) :
    (m.addModulatingSplines n).isecular = m.isecular.map (· + n) ∧
    (m.addModulatingSplines n).iseasonal =
      List.range n ++ m.iseasonal.map (· + n) ∧
    (m.addModulatingSplines n).itransient = m.itransient.map (· + n) ∧
    (m.addModulatingSplines n).istep = m.istep.map (· + n) ∧
    (m.addModulatingSplines n).npar = m.npar + n ∧
    (m.addModulatingSplines n).ifull = List.range (m.npar + n) ∧
    (m.addModulatingSplines n).H =
      m.H.map (fun row => List.replicate n 0 ++ row) ∧
    (m.addModulatingSplines n).G =
      m.G.map (fun g => g.map fun row => List.replicate n 0 ++ row) := by
  unfold Model.addModulatingSplines
  rw [if_neg hne]
  exact ⟨rfl, rfl, rfl, rfl, rfl, rfl, rfl, rfl⟩

theorem addSplines_sizes (m : Model) (n : Nat) (hne : n ≠ 0) :
    (m.addModulatingSplines n).nsecular =
      (m.addModulatingSplines n).isecular.length ∧
    (m.addModulatingSplines n).nseasonal =
      (m.addModulatingSplines n).iseasonal.length ∧
    (m.addModulatingSplines n).ntransient =
      (m.addModulatingSplines n).itransient.length ∧
    (m.addModulatingSplines n).nstep =
      (m.addModulatingSplines n).istep.length ∧
    (m.addModulatingSplines n).nfull =
      (m.addModulatingSplines n).ifull.length := by
  unfold Model.addModulatingSplines
  rw [if_neg hne]
  exact ⟨rfl, rfl, rfl, rfl, rfl⟩

/-- C3: `addModulatingSplines(n)` shifts every index of the four category
lists up by `n`, prepends `[0, n)` to the seasonal list, grows `npar` by
`n`, regenerates `ifull`, recomputes every partition size, and left-pads
`H` (and `G` when present) with `n` zero columns preserving the row
count; the call is a no-op when `n = 0`.  (The `addModulatingSplines(2)`
scenario is checked in the witness.) -/
theorem claim3_addModulatingSplines_spec (m : Model) (n : Nat) (hn : 0 < n) :
    Model.addModulatingSplines m 0 = m ∧
    (m.addModulatingSplines n).isecular = m.isecular.map (· + n) ∧
    (m.addModulatingSplines n).iseasonal =
      List.range n ++ m.iseasonal.map (· + n) ∧
    (m.addModulatingSplines n).itransient = m.itransient.map (· + n) ∧
    (m.addModulatingSplines n).istep = m.istep.map (· + n) ∧
    (m.addModulatingSplines n).npar = m.npar + n ∧
    (m.addModulatingSplines n).ifull = List.range (m.npar + n) ∧
    (m.addModulatingSplines n).nsecular =
      (m.addModulatingSplines n).isecular.length ∧
    (m.addModulatingSplines n).nseasonal =
      (m.addModulatingSplines n).iseasonal.length ∧
    (m.addModulatingSplines n).ntransient =
      (m.addModulatingSplines n).itransient.length ∧
    (m.addModulatingSplines n).nstep =
      (m.addModulatingSplines n).istep.length ∧
    (m.addModulatingSplines n).nfull =
      (m.addModulatingSplines n).ifull.length ∧
    (m.addModulatingSplines n).H.length = m.H.length ∧
    (∀ i, i < m.H.length →
      (m.addModulatingSplines n).H.getD i [] =
        List.replicate n 0 ++ m.H.getD i []) ∧
    (m.addModulatingSplines n).G =
      m.G.map (fun g => g.map fun row => List.replicate n 0 ++ row) := by
  obtain ⟨h1, h2, h3, h4, h5, h6, h7, h8⟩ := addSplines_fields m n hn.ne'
  obtain ⟨s1, s2, s3, s4, s5⟩ := addSplines_sizes m n hn.ne'
  refine ⟨addSplines_zero m, h1, h2, h3, h4, h5, h6, s1, s2, s3, s4, s5,
    ?_, ?_, h8⟩
  · rw [h7]; exact List.length_map _ _
  · intro i hi
    rw [h7]
    exact getD_map_lt _ _ i hi [] []

/-- Witness for C3: the spec scenario `addModulatingSplines(2)` on the
`Npar=5, seasonal=[1]` model: `Npar` becomes 7, seasonal `[0,1,3]`, the
other category indices shift by `+2`, and `H` gains two zero columns at
positions 0 and 1. -/
theorem claim3_witness :
    ((0 : Nat) < 2 ∧ scenarioModel.npar = 5 ∧
      scenarioModel.iseasonal = [1]) ∧
    ((scenarioModel.addModulatingSplines 2).npar = 7 ∧
      (scenarioModel.addModulatingSplines 2).iseasonal = [0, 1, 3] ∧
      (scenarioModel.addModulatingSplines 2).isecular = [2] ∧
      (scenarioModel.addModulatingSplines 2).itransient = [5, 6] ∧
      (scenarioModel.addModulatingSplines 2).istep = [4] ∧
      (scenarioModel.addModulatingSplines 2).H =
        [[0, 0, 1, 0, 1, 0, 0], [0, 0, 1, 1, 1, 0, 0],
         [0, 0, 1, 0, 1, 1, 1]]) ∧
    Model.addModulatingSplines scenarioModel 0 = scenarioModel :=
  ⟨⟨by decide, by decide, by decide⟩, by decide,
    (claim3_addModulatingSplines_spec scenarioModel 2 (by decide)).1⟩

/-- C4: `addModulatingSplines(n)` followed by `addModulatingSplines(0)`
leaves the model exactly as after the single call, and applying `n1` then
`n2` yields the same index sets, `npar`, `ifull` and design matrices
(hence the same shapes, with all the new columns at the front) as the
single call `addModulatingSplines(n1 + n2)`. -/
theorem claim4_addModulatingSplines_additivity (m : Model) (n n1 n2 : Nat) :
    (m.addModulatingSplines n).addModulatingSplines 0 =
      m.addModulatingSplines n ∧
    ((m.addModulatingSplines n1).addModulatingSplines n2).isecular =
      (m.addModulatingSplines (n1 + n2)).isecular ∧
    ((m.addModulatingSplines n1).addModulatingSplines n2).iseasonal =
      (m.addModulatingSplines (n1 + n2)).iseasonal ∧
    ((m.addModulatingSplines n1).addModulatingSplines n2).itransient =
      (m.addModulatingSplines (n1 + n2)).itransient ∧
    ((m.addModulatingSplines n1).addModulatingSplines n2).istep =
      (m.addModulatingSplines (n1 + n2)).istep ∧
    ((m.addModulatingSplines n1).addModulatingSplines n2).npar =
      (m.addModulatingSplines (n1 + n2)).npar ∧
    ((m.addModulatingSplines n1).addModulatingSplines n2).ifull =
      (m.addModulatingSplines (n1 + n2)).ifull ∧
    ((m.addModulatingSplines n1).addModulatingSplines n2).H =
      (m.addModulatingSplines (n1 + n2)).H ∧
    ((m.addModulatingSplines n1).addModulatingSplines n2).G =
      (m.addModulatingSplines (n1 + n2)).G := by
  refine ⟨addSplines_zero _, ?_⟩
  rcases Nat.eq_zero_or_pos n1 with h1 | h1
  · subst h1
    rw [addSplines_zero, Nat.zero_add]
    exact ⟨rfl, rfl, rfl, rfl, rfl, rfl, rfl, rfl⟩
  rcases Nat.eq_zero_or_pos n2 with h2 | h2
  · subst h2
    rw [addSplines_zero, Nat.add_zero]
    exact ⟨rfl, rfl, rfl, rfl, rfl, rfl, rfl, rfl⟩
  obtain ⟨a1, a2, a3, a4, a5, a6, a7, a8⟩ := addSplines_fields m n1 h1.ne'
  obtain ⟨b1, b2, b3, b4, b5, b6, b7, b8⟩ :=
    addSplines_fields (m.addModulatingSplines n1) n2 h2.ne'
  obtain ⟨c1, c2, c3, c4, c5, c6, c7, c8⟩ :=
    addSplines_fields m (n1 + n2) (by omega)
  have hshift : ((fun x => x + n2) ∘ fun x => x + n1) =
      fun (x : Nat) => x + (n1 + n2) := funext fun x => by
    simp [Function.comp]
    omega
  have hrange : List.range n2 ++ (List.range n1).map (· + n2) =
      List.range (n1 + n2) := by
    have hfun : (fun x => n2 + x) = fun (x : Nat) => x + n2 :=
      funext fun x => Nat.add_comm n2 x
    rw [Nat.add_comm n1 n2, List.range_add, hfun]
  have hpad : ((fun row => List.replicate n2 (0 : Int) ++ row) ∘
        fun row => List.replicate n1 (0 : Int) ++ row) =
      fun row => List.replicate (n1 + n2) (0 : Int) ++ row :=
    funext fun row => by
      simp only [Function.comp]
      rw [← List.append_assoc, ← List.replicate_add, Nat.add_comm n2 n1]
  refine ⟨?_, ?_, ?_, ?_, ?_, ?_, ?_, ?_⟩
  · rw [b1, a1, c1, List.map_map, hshift]
  · rw [b2, a2, c2, List.map_append, List.map_map, hshift,
      ← List.append_assoc, hrange]
  · rw [b3, a3, c3, List.map_map, hshift]
  · rw [b4, a4, c4, List.map_map, hshift]
  · rw [b5, a5, c5, Nat.add_assoc]
  · rw [b6, a5, c6, Nat.add_assoc]
  · rw [b7, a7, c7, List.map_map, hpad]
  · rw [b8, a8, c8, Option.map_map]
    congr 1
    funext g
    simp only [Function.comp]
    rw [List.map_map, hpad]

/-- C5: every coordinator-role `predict` call whose `mvec` leading
dimension differs from `npar` fails immediately with the
dimension-mismatch assertion, with no computed output and no writes
(so nothing is silently reshaped or truncated). -/
theorem claim5_dim_mismatch_fails_fast (m : Model) (mvec : Arr3)
    (data : List String) (chunk : (Nat × Nat) × (Nat × Nat)) (insar : Bool)
    (Gmod : Option (List Arr3))
    (hrank : m.rank = 0) (hlen : mvec.length ≠ m.npar) :
    m.predict mvec data chunk insar Gmod = .failed .dimMismatch [] :=
  predict_dim_mismatch m mvec data chunk insar Gmod hrank hlen

/-- Witness for C5: a 4-plane cube against the `npar = 5` scenario model. -/
theorem claim5_witness :
    (scenarioModel.rank = 0 ∧ shortMvec.length ≠ scenarioModel.npar) ∧
    scenarioModel.predict shortMvec ["full"] ((0, 1), (0, 1)) false =
      .failed .dimMismatch [] :=
  ⟨⟨by decide, by decide⟩,
    claim5_dim_mismatch_fails_fast scenarioModel shortMvec ["full"]
      ((0, 1), (0, 1)) false none (by decide) (by decide)⟩

/-- C6 counterexample: on the scenario model built without `Jmat`, a
coordinator-role call with `insar=True` whose `mvec` has the wrong leading
dimension fails with the dimension-mismatch assertion — not with the
missing-matrix error the claim promises for any such call (the shape
`assert` runs before `self.G` is touched). -/
theorem claim6_counterexample :
    scenarioModel.G = none ∧ scenarioModel.rank = 0 ∧
    scenarioModel.predict shortMvec [] ((0, 1), (0, 1)) true =
      .failed .dimMismatch [] := by decide

/-- C6 (amended): for every model constructed without a connectivity
matrix, every coordinator-role `predict` call with `insar=True` whose
`mvec` passes the leading-dimension assertion fails with the
missing-matrix error, before any design-matrix application and with no
writes issued. -/
theorem claim6_missing_matrix (rep : TimeRep) (mvec : Arr3)
    (data : List String) (chunk : (Nat × Nat) × (Nat × Nat))
    (Gmod : Option (List Arr3))
    (hlen : mvec.length = (Model.init rep 0 none).npar) :
    (Model.init rep 0 none).predict mvec data chunk true Gmod =
      .failed .missingMatrix [] :=
  predict_missing_matrix (Model.init rep 0 none) mvec data chunk Gmod
    rfl hlen rfl

/-- Witness for C6 (amended) at the scenario model. -/
theorem claim6_witness :
    scenarioMvec.length = (Model.init scenarioRep 0 none).npar ∧
    (Model.init scenarioRep 0 none).predict scenarioMvec [] ((0, 1), (0, 1))
        true none =
      .failed .missingMatrix [] :=
  ⟨by decide,
    claim6_missing_matrix scenarioRep scenarioMvec [] ((0, 1), (0, 1)) none
      (by decide)⟩

/-- C9: every non-coordinator rank returns from `predict` immediately with
no computation and no writes, and its `setChunk` is a no-op returning the
state unchanged; only rank 0 computes and writes. -/
theorem claim9_noncoordinator_noop :
    (∀ (m : Model) (mvec : Arr3) (data : List String)
        (chunk : (Nat × Nat) × (Nat × Nat)) (insar : Bool)
        (Gmod : Option (List Arr3)), m.rank ≠ 0 →
      m.predict mvec data chunk insar Gmod = .skipped) ∧
    (∀ (s : Insar) (dat : Arr3) (sy sx : Nat × Nat) (dtype : String),
      s.rank ≠ 0 → s.setChunk dat sy sx dtype = .ok s) := by
  constructor
  · intro m mvec data chunk insar Gmod h
    exact predict_skipped m mvec data chunk insar Gmod h
  · intro s dat sy sx dtype h
    unfold Insar.setChunk
    rw [if_neg h]

/-- Witness for C9 on a rank-1 model and a rank-1 stack. -/
theorem claim9_witness :
    (workerModel.rank ≠ 0 ∧ workerStack.rank ≠ 0) ∧
    workerModel.predict scenarioMvec [] ((0, 1), (0, 1)) false none =
      .skipped ∧
    workerStack.setChunk scenarioChunkData (1, 3) (0, 2) "igram" =
      .ok workerStack :=
  ⟨⟨by decide, by decide⟩,
    claim9_noncoordinator_noop.1 workerModel scenarioMvec [] ((0, 1), (0, 1))
      false none (by decide),
    claim9_noncoordinator_noop.2 workerStack scenarioChunkData (1, 3) (0, 2)
      "igram" (by decide)⟩

/-- C10 (implicit): `addModulatingSplines` never touches the ownership
range, so on a model straight out of the constructor (where the range
defaults to the then-full `[0, npar)`), a positive insertion leaves the
range at `[0, npar - n)` with respect to the new `npar`: it no longer
spans the full parameter range. -/
theorem claim10_ownership_range_stale (rep : TimeRep) (rank : Nat)
    (Jmat : Option Mat) (m : Model) (n : Nat) (hn : 0 < n) :
    ((m.addModulatingSplines n).jstart = m.jstart ∧
     (m.addModulatingSplines n).jend = m.jend) ∧
    ((Model.init rep rank Jmat).addModulatingSplines n).jstart = 0 ∧
    ((Model.init rep rank Jmat).addModulatingSplines n).jend =
      ((Model.init rep rank Jmat).addModulatingSplines n).npar - n ∧
    ((Model.init rep rank Jmat).addModulatingSplines n).jend ≠
      ((Model.init rep rank Jmat).addModulatingSplines n).npar := by
  have hne : n ≠ 0 := hn.ne'
  have hje : ((Model.init rep rank Jmat).addModulatingSplines n).jend =
      (Model.init rep rank Jmat).npar := by
    unfold Model.addModulatingSplines
    rw [if_neg hne]
    rfl
  have hnp : ((Model.init rep rank Jmat).addModulatingSplines n).npar =
      (Model.init rep rank Jmat).npar + n := by
    unfold Model.addModulatingSplines
    rw [if_neg hne]
    rfl
  have hjs : ((Model.init rep rank Jmat).addModulatingSplines n).jstart = 0 := by
    unfold Model.addModulatingSplines
    rw [if_neg hne]
    rfl
  refine ⟨?_, hjs, by omega, by omega⟩
  unfold Model.addModulatingSplines
  rw [if_neg hne]
  exact ⟨rfl, rfl⟩

/-- Witness for C10: the scenario model with two modulating splines:
`jend` stays 5 while `npar` grows to 7. -/
theorem claim10_witness :
    ((0 : Nat) < 2) ∧
    (((Model.init scenarioRep 0 none).addModulatingSplines 2).jend = 5 ∧
      ((Model.init scenarioRep 0 none).addModulatingSplines 2).npar = 7) ∧
    (((Model.init scenarioRep 0 none).addModulatingSplines 2).jstart = 0 ∧
      ((Model.init scenarioRep 0 none).addModulatingSplines 2).jend =
        ((Model.init scenarioRep 0 none).addModulatingSplines 2).npar - 2 ∧
      ((Model.init scenarioRep 0 none).addModulatingSplines 2).jend ≠
        ((Model.init scenarioRep 0 none).addModulatingSplines 2).npar) :=
  ⟨by decide, ⟨by decide, by decide⟩,
    (claim10_ownership_range_stale scenarioRep 0 none
      (Model.init scenarioRep 0 none) 2 (by decide)).2⟩

/-! ### Round-trip lemmas for the chunked stack -/

theorem sliceL_setL (a b : Nat) (l vals : List α) (hab : a ≤ b)
    (hbl : b ≤ l.length) (hv : vals.length = b - a) :
    sliceL a b (setL a b l vals) = vals := by
  unfold sliceL setL
  have hta : (l.take a).length = a := by
    rw [List.length_take]; omega
  rw [List.append_assoc, List.drop_left' hta, ← hv, List.take_left]

theorem sliceL_append (a b : Nat) (x y : List α) (hx : x.length = a) :
    sliceL a b (x ++ y) = y.take (b - a) := by
  unfold sliceL
  rw [List.drop_left' hx]

theorem slicePlane_setPlane {ny nx : Nat} (sy sx : Nat × Nat) (p q : Mat)
    (hp : Shaped2 ny nx p)
    (hy : sy.1 ≤ sy.2) (hy2 : sy.2 ≤ ny)
    (hx : sx.1 ≤ sx.2) (hx2 : sx.2 ≤ nx)
    (hq : Shaped2 (sy.2 - sy.1) (sx.2 - sx.1) q) :
    (sliceL sy.1 sy.2 (setPlane sy sx p q)).map (sliceL sx.1 sx.2) = q := by
  have hplen := hp.1
  have hqlen := hq.1
  unfold setPlane
  have hta : (p.take sy.1).length = sy.1 := by
    rw [List.length_take]; omega
  have hmid : (List.zipWith (fun row qrow => setL sx.1 sx.2 row qrow)
      (sliceL sy.1 sy.2 p) q).length = sy.2 - sy.1 := by
    rw [List.length_zipWith]
    unfold sliceL
    rw [List.length_take, List.length_drop, hqlen, hplen]
    omega
  rw [List.append_assoc, sliceL_append _ _ _ _ hta,
    List.take_left' hmid, List.map_zipWith]
  apply zipWith_snd_eq
  · intro row hrow qrow hqrow
    have hrowp : row ∈ p :=
      List.mem_of_mem_drop (List.mem_of_mem_take hrow)
    apply sliceL_setL sx.1 sx.2 row qrow hx ?_ (hq.2 qrow hqrow)
    rw [hp.2 row hrowp]
    exact hx2
  · rw [hqlen]
    unfold sliceL
    rw [List.length_take, List.length_drop]
    omega

theorem slice3_set3 {nt ny nx : Nat} (sy sx : Nat × Nat) (arr dat : Arr3)
    (harr : Shaped3 nt ny nx arr)
    (hdat : Shaped3 nt (sy.2 - sy.1) (sx.2 - sx.1) dat)
    (hy : sy.1 ≤ sy.2) (hy2 : sy.2 ≤ ny)
    (hx : sx.1 ≤ sx.2) (hx2 : sx.2 ≤ nx) :
    slice3 (set3 arr sy sx dat) sy sx = dat := by
  unfold slice3 set3
  rw [List.map_zipWith]
  apply zipWith_snd_eq
  · intro plane hplane qp hqp
    exact slicePlane_setPlane sy sx plane qp (harr.2 plane hplane)
      hy hy2 hx hx2 (hdat.2 qp hqp)
  · exact le_of_eq (by rw [hdat.1, harr.1])

theorem attrGet_attrSet (s : Insar) (dtype : String) (arr a : Arr3)
    (h : s.attrGet dtype = .ok arr) :
    (s.attrSet dtype a).attrGet dtype = .ok a := by
  unfold Insar.attrGet at h ⊢
  unfold Insar.attrSet
  by_cases h1 : dtype = "igram"
  · simp [h1, optDataset]
  by_cases h2 : dtype = "weight"
  · simp [h1, h2, optDataset]
  by_cases h3 : dtype = "par"
  · simp [h1, h2, h3, optDataset]
  by_cases h4 : dtype = "recon"
  · simp [h1, h2, h3, h4, optDataset]
  · simp [h1, h2, h3, h4] at h

theorem attrSet_n_workers (s : Insar) (dtype : String) (a : Arr3) :
    (s.attrSet dtype a).n_workers = s.n_workers := by
  unfold Insar.attrSet
  split_ifs <;> rfl

/-- C7: on the coordinator's stack state, for every dtype naming an
existing dataset and every non-empty in-bounds chunk, `setChunk(x, sy,
sx, dtype)` succeeds and a subsequent `getChunk(sy, sx, dtype)` hands
every one of the `n_workers` ranks (coordinator and workers alike) a
value equal to `x`. -/
theorem claim7_chunk_roundtrip (s : Insar) (dat arr : Arr3)
    (sy sx : Nat × Nat) (dtype : String) (nt ny nx : Nat)
    (hrank : s.rank = 0)
    (hds : s.attrGet dtype = .ok arr)
    (harr : Shaped3 nt ny nx arr)
    (hdat : Shaped3 nt (sy.2 - sy.1) (sx.2 - sx.1) dat)
    (hy0 : sy.1 < sy.2) (hy2 : sy.2 ≤ ny)
    (hx0 : sx.1 < sx.2) (hx2 : sx.2 ≤ nx) :
    ∃ s', s.setChunk dat sy sx dtype = .ok s' ∧
      s'.getChunk sy sx dtype = .ok (List.replicate s.n_workers dat) ∧
      ∀ v ∈ List.replicate s.n_workers dat, v = dat := by
  refine ⟨s.attrSet dtype (set3 arr sy sx dat), ?_, ?_,
    fun v hv => List.eq_of_mem_replicate hv⟩
  · unfold Insar.setChunk
    rw [if_pos hrank, hds]
  · unfold Insar.getChunk
    rw [attrGet_attrSet s dtype arr _ hds]
    show Except.ok
        (List.replicate (s.attrSet dtype (set3 arr sy sx dat)).n_workers
          (slice3 (set3 arr sy sx dat) sy sx)) =
      Except.ok (List.replicate s.n_workers dat)
    rw [attrSet_n_workers,
      slice3_set3 sy sx arr dat harr hdat hy0.le hy2 hx0.le hx2]

/-- Witness for C7: the 3-role `(3,4,4)` scenario stack; the coordinator
writes a `(3,2,2)` block at rows `1..2`, columns `0..1` of the `igram`
dataset, and the collective read returns that block to all 3 ranks. -/
theorem claim7_witness :
    (scenarioStack.rank = 0 ∧
      scenarioStack.attrGet "igram" =
        .ok (List.replicate 3 (matZero 4 4)) ∧
      Shaped3 3 4 4 (List.replicate 3 (matZero 4 4)) ∧
      Shaped3 3 2 2 scenarioChunkData ∧
      (1 : Nat) < 3 ∧ (0 : Nat) < 2) ∧
    ∃ s', scenarioStack.setChunk scenarioChunkData (1, 3) (0, 2) "igram" =
        .ok s' ∧
      s'.getChunk (1, 3) (0, 2) "igram" =
        .ok (List.replicate scenarioStack.n_workers scenarioChunkData) ∧
      ∀ v ∈ List.replicate scenarioStack.n_workers scenarioChunkData,
        v = scenarioChunkData :=
  ⟨⟨by decide, by decide, by decide, by decide, by decide, by decide⟩,
    claim7_chunk_roundtrip scenarioStack scenarioChunkData
      (List.replicate 3 (matZero 4 4)) (1, 3) (0, 2) "igram" 3 4 4
      (by decide) (by decide) (by decide) (by decide)
      (by decide) (by decide) (by decide) (by decide)⟩

/-- C8 counterexample: on the freshly initialized scenario stack the
role `par` does not name an existing dataset (`_par` was never created),
yet `getChunk` fails with the attribute error, not with a key error as
the claim states. -/
theorem claim8_counterexample :
    scenarioStack.par = none ∧
    scenarioStack.getChunk (0, 2) (0, 2) "par" = .error .attrError ∧
    scenarioStack.getChunk (0, 2) (0, 2) "par" ≠ .error .keyError := by
  decide

/-- C8 (amended): a `dtype` outside the four recognized names
(`igram`/`weight`/`par`/`recon`) makes `getChunk` fail with a key error
surfaced to the caller; a recognized name whose dataset was never created
fails with an attribute error instead. -/
theorem claim8_unrecognized_role_key_error (s : Insar) (sy sx : Nat × Nat)
    (dtype : String)
    (hun : dtype ≠ "igram" ∧ dtype ≠ "weight" ∧ dtype ≠ "par" ∧
      dtype ≠ "recon") :
    s.getChunk sy sx dtype = .error .keyError ∧
    (s.par = none → s.getChunk sy sx "par" = .error .attrError) := by
  obtain ⟨h1, h2, h3, h4⟩ := hun
  constructor
  · unfold Insar.getChunk Insar.attrGet
    rw [if_neg h1, if_neg h2, if_neg h3, if_neg h4]
  · intro hpar
    unfold Insar.getChunk Insar.attrGet
    rw [if_neg (by decide : ("par" : String) ≠ "igram"),
      if_neg (by decide : ("par" : String) ≠ "weight"),
      if_pos rfl, hpar]
    rfl

/-- Witness for C8 (amended): the unrecognized role string `"velocity"`
on the scenario stack, whose `par` dataset is also absent. -/
theorem claim8_witness :
    (("velocity" : String) ≠ "igram" ∧ ("velocity" : String) ≠ "weight" ∧
      ("velocity" : String) ≠ "par" ∧ ("velocity" : String) ≠ "recon") ∧
    scenarioStack.getChunk (0, 2) (0, 2) "velocity" = .error .keyError ∧
    (scenarioStack.par = none →
      scenarioStack.getChunk (0, 2) (0, 2) "par" = .error .attrError) :=
  ⟨⟨by decide, by decide, by decide, by decide⟩,
    (claim8_unrecognized_role_key_error scenarioStack (0, 2) (0, 2)
      "velocity" ⟨by decide, by decide, by decide, by decide⟩).1,
    (claim8_unrecognized_role_key_error scenarioStack (0, 2) (0, 2)
      "velocity" ⟨by decide, by decide, by decide, by decide⟩).2⟩

end Pygeodesy
